import Mathlib

/-!
Formal model of `src/prepCV/auto_preprocessing.py` (repository
`Kalmy8/auto_preprocessing`).

Shallow embedding conventions:
* Python `dict`s preserve insertion order, so they are embedded as
  association lists (`List (key × value)`), with the understanding that
  keys are distinct.
* Operations (the callables used as pipeline steps) are identified by
  their name, a `String`; parameter values are drawn from an arbitrary
  type `V`.
* Python exceptions are embedded as `Except` / `Option` results; the
  relevant exception classes are the constructors of `PyErr`.
* The interactive matplotlib selector is embedded with the external
  actor as an oracle `Nat → Option Nat`: for each displayed round
  (counted from 0) the oracle yields either `some pos` — the 0-based
  position chosen within the shown batch (key presses `1`..`9`) — or
  `none`, the cancellation key `c`.  A round ends exactly when a
  selection is made or the figure is closed via `c`, matching
  `ImageSelector._on_key`.
* `print` output that a claim mentions is collected in a `List String`
  result component.
-/

/-- A parameter-spec entry value: `PipelineDescription` accepts
`dict[str, list[Any] | Any]`, i.e. either a bare single value or a list
of candidate values. -/
inductive SpecVal (V : Type) where
  | single (v : V)
  | multi (vs : List V)
deriving DecidableEq

/-- The candidate list denoted by a spec entry: a bare value counts as a
singleton list (spec §4.2). -/
def SpecVal.toList {V : Type} : SpecVal V → List V
  | .single v => [v]
  | .multi vs => vs

/-- A Parameter Spec: ordered mapping from parameter name to candidate
value(s); embeds `dict[str, list[Any] | Any]`. -/
abbrev ParamSpec (V : Type) := List (String × SpecVal V)

/-- A Pipeline Description's payload: ordered mapping from operation
(identified by name) to Parameter Spec; embeds
`dict[Callable, dict[str, list[Any] | Any]]`. -/
abbrev PipelineDescription (V : Type) := List (String × ParamSpec V)

/-- A Resolved Pipeline Description: every parameter holds exactly one
value (the type enforces single-valuedness). -/
abbrev ResolvedPipelineDescription (V : Type) := List (String × List (String × V))

/-- Modelled from the spec: `parameter_combinations` lives in the
repository's `utils` module, which is not present under `src/`.
Per spec §4.2 it expands a Parameter Spec into the Cartesian product of
the per-parameter candidate lists (a bare value acting as a singleton),
preserving parameter-name order within each output mapping and
producing the combinations in lexicographic order over the input list
order (earlier parameters vary slowest, as with `itertools.product`). -/
def parameter_combinations {V : Type} : ParamSpec V → List (List (String × V))
  | [] => [[]]
  | (name, sv) :: rest =>
    sv.toList.flatMap fun v =>
      (parameter_combinations rest).map fun combination => (name, v) :: combination

/-- Cartesian product of a list of lists in `itertools.product` order
(the first list varies slowest); used by
`PipelineManager._resolve_complex_descriptions` via `product(*...)`. -/
def productLists {α : Type} : List (List α) → List (List α)
  | [] => [[]]
  | xs :: rest => xs.flatMap fun x => (productLists rest).map fun tl => x :: tl

/-- Embeds `PipelineManager._resolve_complex_descriptions`
(`auto_preprocessing.py` lines 98–120): per operation, list all
single-valued parameter combinations tagged with that operation; take
the product across operations; each combination is merged with
`dict.update` in operation order, i.e. concatenated as an ordered
association list. -/
def PipelineManager._resolve_complex_descriptions {V : Type}
    (pipeline_description : PipelineDescription V) :
    List (ResolvedPipelineDescription V) :=
  let function_param_combinations :=
    pipeline_description.map fun fp =>
      (parameter_combinations fp.2).map fun combination => (fp.1, combination)
  productLists function_param_combinations

/-- Embeds `PipelineDescription._validate` (lines 62–78).  `get_params`
models `get_cv2_function_params` (modelled from the spec: that function
lives in the missing `utils` module; per spec §4.1 it returns the
operation's accepted parameter names, or an empty result when
introspection is impossible, in which case validation for that
operation is skipped with a warning).  A failed validation raises
`ValueError` naming the offending function and parameter — embedded as
`.error (function, parameter)`. -/
def PipelineDescription._validate {V : Type} (get_params : String → List String) :
    PipelineDescription V → Except (String × String) Unit
  | [] => .ok ()
  | (f, param_dict) :: rest =>
    let valid_params := get_params f
    if valid_params.isEmpty then PipelineDescription._validate get_params rest
    else
      match (param_dict.map Prod.fst).find? (fun pn => !(valid_params.contains pn)) with
      | some bad => .error (f, bad)
      | none => PipelineDescription._validate get_params rest

/-- The Python exceptions the modelled code can raise. -/
inductive PyErr where
  | assertionError
  | executionError
  | indexError
  | unboundLocalError
deriving DecidableEq

/-- One oracle interaction inside `ImageSelector._on_key`: `resp = none`
is the cancellation key `c` (figure closed, best unchanged);
`resp = some pos` is a selection key whose 0-based position indexes the
current batch.  An out-of-range position raises inside the matplotlib
callback, which swallows the exception and leaves the best unchanged. -/
def ImageSelector.nextBest (batch : List Nat) (best resp : Option Nat) : Option Nat :=
  match resp with
  | none => best
  | some pos =>
    match batch[pos]? with
    | some j => some j
    | none => best

/-- The `while len(cls._image_indexes) > 0` loop of
`ImageSelector.select_best_image` together with
`ImageSelector._show_next_batch` (lines 235–253): when a running best
exists, the batch is `[best] + pool[:b-1]` and the pool drops `b-1`
entries; otherwise the batch is `pool[:b]` and the pool drops `b`.
`fuel` bounds the iteration count (the caller passes the pool length,
which suffices for `b ≥ 2`); the result is the number of oracle rounds
performed paired with the final best index. -/
def ImageSelector.selectLoop (oracle : Nat → Option Nat) (b : Nat) :
    Nat → List Nat → Option Nat → Nat → Nat × Option Nat
  | 0, _, best, rounds => (rounds, best)
  | _ + 1, [], best, rounds => (rounds, best)
  | fuel + 1, x :: xs, some bi, rounds =>
    ImageSelector.selectLoop oracle b fuel ((x :: xs).drop (b - 1))
      (ImageSelector.nextBest (bi :: (x :: xs).take (b - 1)) (some bi) (oracle rounds))
      (rounds + 1)
  | fuel + 1, x :: xs, none, rounds =>
    ImageSelector.selectLoop oracle b fuel ((x :: xs).drop b)
      (ImageSelector.nextBest ((x :: xs).take b) none (oracle rounds))
      (rounds + 1)

/-- Embeds `ImageSelector.select_best_image` (lines 207–240): index pool
is `range(len(images))`; empty pool returns `None` immediately, a
single image returns index 0 immediately, otherwise the batch loop
runs.  Returns (number of oracle rounds, selected index or `None`). -/
def ImageSelector.select_best_image {Img : Type} (oracle : Nat → Option Nat)
    (images : List Img) (batch_size : Nat) : Nat × Option Nat :=
  let image_indexes := List.range images.length
  if images.length = 0 then (0, none)
  else if images.length = 1 then (0, some 0)
  else ImageSelector.selectLoop oracle batch_size image_indexes.length image_indexes none 0

/-- The list comprehension
`[preprocessor.process(np_image) for preprocessor in competitors]`:
each candidate's run may raise (`none`); the first raise propagates and
aborts the whole comprehension. -/
def processAll {P Img : Type} (process : P → Option Img) : List P → Option (List Img)
  | [] => some []
  | p :: rest =>
    match process p with
    | none => none
    | some img =>
      match processAll process rest with
      | none => none
      | some imgs => some (img :: imgs)

/-- Embeds `GridSearch.search` (lines 171–184): run every competitor
(`process` abstracts `Preprocessor.process`, `none` = the run raised),
optionally transform each output through the OCR engine, select the
best image index with the default `batch_size = 4`, then
`assert best_image_index` (which fails on `None` *and* on the falsy
index `0`) and return `competitors[best_image_index]`. -/
def GridSearch.search {P Img : Type} (oracle : Nat → Option Nat)
    (process : P → Option Img) (ocr_engine : Option (Img → Img))
    (competitors : List P) : Except PyErr P :=
  match processAll process competitors with
  | none => .error .executionError
  | some imgs =>
    let competing_images :=
      match ocr_engine with
      | some eng => imgs.map eng
      | none => imgs
    match (ImageSelector.select_best_image oracle competing_images 4).2 with
    | none => .error .assertionError
    | some best_image_index =>
      if best_image_index = 0 then .error .assertionError
      else
        match competitors[best_image_index]? with
        | some p => .ok p
        | none => .error .indexError

/-- The `PipelineManager` class-level state (lines 94–96): registered
preprocessors, cached best, and the preprocessors newly added since the
last search.  A preprocessor is identified with the resolved
description it wraps, so `P` abstracts over it. -/
structure PipelineManager (P : Type) where
  pipelines : List P
  best_preprocessor : Option P
  newly_added : List P
deriving DecidableEq

/-- Result of `PipelineManager.run_search`: lines printed, the
class-level state afterwards, and the exception that propagated out, if
any. -/
structure RunSearchOut (P : Type) where
  printed : List String
  state : PipelineManager P
  err : Option PyErr
deriving DecidableEq

/-- Embeds `PipelineManager.add_pipeline` (lines 122–126): resolve the
description and append each resulting preprocessor to both `pipelines`
and `newly_added`. -/
def PipelineManager.add_pipeline {V : Type}
    (cls : PipelineManager (ResolvedPipelineDescription V))
    (pipeline_description : PipelineDescription V) :
    PipelineManager (ResolvedPipelineDescription V) :=
  let rs := PipelineManager._resolve_complex_descriptions pipeline_description
  { cls with pipelines := cls.pipelines ++ rs, newly_added := cls.newly_added ++ rs }

/-- Embeds `PipelineManager.run_search` (lines 128–144).  With strategy
`"GridSearch"` the candidate pool is `pipelines` when `cold_start` else
`newly_added`; a successful search stores the winner and clears
`newly_added`; an exception from `search` propagates before either
assignment runs.  With any other strategy name the valid-options
message is printed and then line 143 reads the never-bound local
`strategy`, raising `UnboundLocalError` with the state untouched. -/
def PipelineManager.run_search {P Img : Type} (cls : PipelineManager P)
    (oracle : Nat → Option Nat) (process : P → Option Img)
    (ocr_engine : Option (Img → Img)) (search_strategy : String)
    (cold_start : Bool) : RunSearchOut P :=
  if search_strategy = "GridSearch" then
    let competitors := if cold_start then cls.pipelines else cls.newly_added
    match GridSearch.search oracle process ocr_engine competitors with
    | .ok p => ⟨[], { cls with best_preprocessor := some p, newly_added := [] }, none⟩
    | .error e => ⟨[], cls, some e⟩
  else
    ⟨["No such strategy implemented. Valid options are: GridSearch"], cls,
      some .unboundLocalError⟩

/-- Embeds `PipelineManager.get_best_preprocessor` (lines 146–151): if
`newly_added` is non-empty, the cached best is set to `None` and a
warning is printed; the (possibly cleared) cached best is returned.
Result: (returned value, state afterwards, lines printed). -/
def PipelineManager.get_best_preprocessor {P : Type} (cls : PipelineManager P) :
    Option P × PipelineManager P × List String :=
  if cls.newly_added.isEmpty then (cls.best_preprocessor, cls, [])
  else
    (none, { cls with best_preprocessor := none },
      ["New pipelines were added. Do run_search once again to define a new winner"])

/-- Ceiling division on naturals. -/
def ceilDiv (a c : Nat) : Nat := (a + c - 1) / c

/-- Bound on the number of remaining oracle rounds of the selection loop
for a pool of length `L`: with a running best each round retires `b-1`
pool entries; without one the first round retires `b`. -/
def roundBound (b : Nat) : Option Nat → Nat → Nat
  | some _, L => ceilDiv L (b - 1)
  | none, L => if L = 0 then 0 else 1 + ceilDiv (L - b) (b - 1)

/-- Concrete fixture: a two-operation description with 1 and 6 parameter
combinations respectively (parameter values are coded as naturals). -/
def exampleDescription : PipelineDescription Nat :=
  [("cvtColor", [("code", SpecVal.single 0)]),
    ("adaptiveThreshold", [("blockSize", SpecVal.multi [3, 5]), ("C", SpecVal.multi [1, 2, 3])])]

/-- Concrete fixture: one of the resolved descriptions produced from
`exampleDescription`. -/
def exampleResolved : ResolvedPipelineDescription Nat :=
  [("cvtColor", [("code", 0)]), ("adaptiveThreshold", [("blockSize", 3), ("C", 1)])]

/-- Concrete fixture oracle: selects batch position 1 in the first round
and cancels (`c`) in every later round. -/
def cancelAfterFirstOracle : Nat → Option Nat :=
  fun r => if r = 0 then some 1 else none

/-- Concrete fixture introspection map standing in for
`get_cv2_function_params` on the fixture operations. -/
def acceptedParams : String → List String :=
  fun f => if f = "cvtColor" then ["code"] else ["blockSize", "C"]

/-- Concrete fixture: a description whose second operation uses the
parameter name `banana`, which `acceptedParams` does not accept. -/
def badDescription : PipelineDescription Nat :=
  [("cvtColor", [("code", SpecVal.single 0)]),
    ("adaptiveThreshold", [("blockSize", SpecVal.single 3), ("banana", SpecVal.single 9)])]

/-! ### Arithmetic helpers -/

theorem ceilDiv_mono {a b c : Nat} (h : a ≤ b) : ceilDiv a c ≤ ceilDiv b c := by
  unfold ceilDiv
  exact Nat.div_le_div_right (Nat.sub_le_sub_right (Nat.add_le_add_right h c) 1)

theorem ceilDiv_step {c L : Nat} (hc : 0 < c) (hL : 0 < L) :
    ceilDiv L c = 1 + ceilDiv (L - c) c := by
  unfold ceilDiv
  rcases le_or_lt L c with h | h
  · have h0 : L - c = 0 := Nat.sub_eq_zero_of_le h
    rw [h0]
    have h1 : (0 + c - 1) / c = 0 := Nat.div_eq_of_lt (by omega)
    have h2 : (L + c - 1) / c = 1 := Nat.div_eq_of_lt_le (by omega) (by omega)
    omega
  · have h3 : L + c - 1 = (L - c + c - 1) + c := by omega
    rw [h3, Nat.add_div_right _ hc]
    omega

theorem roundBound_le {b : Nat} (hb : 2 ≤ b) (best : Option Nat) (L : Nat) :
    roundBound b best L ≤ ceilDiv L (b - 1) := by
  cases best with
  | some bi => exact Nat.le_refl _
  | none =>
    simp only [roundBound]
    by_cases hL : L = 0
    · simp [hL]
    · rw [if_neg hL]
      have h1 : ceilDiv L (b - 1) = 1 + ceilDiv (L - (b - 1)) (b - 1) :=
        ceilDiv_step (by omega) (by omega)
      rw [h1]
      exact Nat.add_le_add_left (ceilDiv_mono (by omega)) 1

/-! ### Selector loop lemmas -/

theorem nextBest_isSome (batch : List Nat) (bi : Nat) (resp : Option Nat) :
    ∃ j, ImageSelector.nextBest batch (some bi) resp = some j := by
  unfold ImageSelector.nextBest
  cases resp with
  | none => exact ⟨bi, rfl⟩
  | some pos =>
    cases h : batch[pos]? with
    | none => exact ⟨bi, by simp [h]⟩
    | some j => exact ⟨j, by simp [h]⟩

theorem selectLoop_rounds_le (oracle : Nat → Option Nat) {b : Nat} (hb : 2 ≤ b) :
    ∀ (fuel : Nat) (pool : List Nat) (best : Option Nat) (rounds : Nat),
      pool.length ≤ fuel →
      (ImageSelector.selectLoop oracle b fuel pool best rounds).1 ≤
        rounds + roundBound b best pool.length := by
  intro fuel
  induction fuel with
  | zero =>
    intro pool best rounds hlen
    have hpool : pool = [] := List.eq_nil_of_length_eq_zero (Nat.le_zero.mp hlen)
    subst hpool
    simp [ImageSelector.selectLoop]
  | succ fuel ih =>
    intro pool best rounds hlen
    match pool with
    | [] => simp [ImageSelector.selectLoop]
    | x :: xs =>
      cases best with
      | some bi =>
        have hlen2 : ((x :: xs).drop (b - 1)).length ≤ fuel := by
          simp only [List.length_drop, List.length_cons] at *
          omega
        obtain ⟨j, hj⟩ := nextBest_isSome (bi :: (x :: xs).take (b - 1)) bi (oracle rounds)
        have hrec := ih ((x :: xs).drop (b - 1))
          (ImageSelector.nextBest (bi :: (x :: xs).take (b - 1)) (some bi) (oracle rounds))
          (rounds + 1) hlen2
        rw [hj] at hrec
        simp only [roundBound, List.length_drop, List.length_cons] at hrec
        simp only [ImageSelector.selectLoop]
        rw [hj]
        refine hrec.trans ?_
        simp only [roundBound, List.length_cons]
        have hstep := @ceilDiv_step (b - 1) (xs.length + 1) (by omega) (by omega)
        omega
      | none =>
        have hlen2 : ((x :: xs).drop b).length ≤ fuel := by
          simp only [List.length_drop, List.length_cons] at *
          omega
        have hrec := ih ((x :: xs).drop b)
          (ImageSelector.nextBest ((x :: xs).take b) none (oracle rounds))
          (rounds + 1) hlen2
        simp only [List.length_drop, List.length_cons] at hrec
        simp only [ImageSelector.selectLoop]
        refine hrec.trans ?_
        have hrb := roundBound_le hb
          (ImageSelector.nextBest ((x :: xs).take b) none (oracle rounds))
          (xs.length + 1 - b)
        have hne : ¬(xs.length + 1 = 0) := by omega
        have hR : roundBound b none (x :: xs).length
            = 1 + ceilDiv (xs.length + 1 - b) (b - 1) := by
          simp only [roundBound, List.length_cons]
          rw [if_neg hne]
        rw [hR]
        omega

/-- Claim C6: for every candidate list of size N > 1 and batch size
b ≥ 2, the Selector completes after at most ceil((N-1)/(b-1)) oracle
rounds: each round after the first carries the running best into the
batch and retires b-1 non-winning candidates, and the first round
retires b.  The bound holds for every oracle behaviour (selections,
cancellations, or out-of-range positions). -/
theorem select_best_image_round_bound {Img : Type} (oracle : Nat → Option Nat)
    (b : Nat) (images : List Img) (hb : 2 ≤ b) (hN : 2 ≤ images.length) :
    (ImageSelector.select_best_image oracle images b).1 ≤
      ceilDiv (images.length - 1) (b - 1) := by
  have h0 : ¬(images.length = 0) := by omega
  have h1 : ¬(images.length = 1) := by omega
  simp only [ImageSelector.select_best_image, if_neg h0, if_neg h1]
  have h := selectLoop_rounds_le oracle hb (List.range images.length).length
    (List.range images.length) none 0 (Nat.le_refl _)
  simp only [List.length_range] at h ⊢
  refine h.trans ?_
  have hR : roundBound b none images.length
      = 1 + ceilDiv (images.length - b) (b - 1) := by
    simp only [roundBound]
    rw [if_neg h0]
  rw [hR]
  have hstep := @ceilDiv_step (b - 1) (images.length - 1) (by omega) (by omega)
  have harg : images.length - 1 - (b - 1) = images.length - b := by omega
  rw [harg] at hstep
  omega

/-- Witness for C6 at N = 5 candidates, batch size 4: the hypotheses
hold and the selector finishes within ceil(4/3) = 2 oracle rounds. -/
theorem select_best_image_round_bound_witness :
    2 ≤ 4 ∧ 2 ≤ ([0, 1, 2, 3, 4] : List Nat).length ∧
      (ImageSelector.select_best_image (fun _ => some 0) ([0, 1, 2, 3, 4] : List Nat) 4).1 ≤
        ceilDiv (([0, 1, 2, 3, 4] : List Nat).length - 1) (4 - 1) :=
  ⟨by decide, by decide,
    select_best_image_round_bound (fun _ => some 0) 4 [0, 1, 2, 3, 4] (by decide) (by decide)⟩

/-- Claim C7: the Selector on an empty candidate list returns `None`
immediately, and on exactly one candidate returns index 0 immediately;
in both cases zero oracle rounds are performed. -/
theorem select_best_image_trivial_pools {Img : Type} (oracle : Nat → Option Nat)
    (batch_size : Nat) (images : List Img) :
    (images.length = 0 →
      ImageSelector.select_best_image oracle images batch_size = (0, none)) ∧
    (images.length = 1 →
      ImageSelector.select_best_image oracle images batch_size = (0, some 0)) := by
  constructor
  · intro h
    simp [ImageSelector.select_best_image, h]
  · intro h
    simp [ImageSelector.select_best_image, h]

/-- Witness for C7: concrete empty and singleton image lists. -/
theorem select_best_image_trivial_pools_witness :
    ImageSelector.select_best_image (fun _ => some 0) ([] : List Nat) 4 = (0, none) ∧
      ImageSelector.select_best_image (fun _ => some 0) [99] 4 = (0, some 0) :=
  ⟨(select_best_image_trivial_pools (fun _ => some 0) 4 ([] : List Nat)).1 rfl,
    (select_best_image_trivial_pools (fun _ => some 0) 4 [99]).2 rfl⟩

/-! ### Cartesian product lemmas -/

theorem sum_map_const_nat {α : Type} (xs : List α) (K : Nat) :
    (xs.map fun _ => K).sum = xs.length * K := by
  induction xs with
  | nil => simp
  | cons x xs ih => simp [ih, Nat.succ_mul, Nat.add_comm]

theorem productLists_length {α : Type} : ∀ (L : List (List α)),
    (productLists L).length = (L.map List.length).prod := by
  intro L
  induction L with
  | nil => rfl
  | cons xs rest ih =>
    simp only [productLists, List.length_flatMap, Function.comp_def, List.length_map,
      List.map_cons, List.prod_cons]
    rw [sum_map_const_nat, ih]

theorem mem_productLists {α : Type} : ∀ {L : List (List α)} {r : List α},
    r ∈ productLists L → List.Forall₂ (fun x xs => x ∈ xs) r L := by
  intro L
  induction L with
  | nil =>
    intro r hr
    simp only [productLists, List.mem_singleton] at hr
    subst hr
    exact List.Forall₂.nil
  | cons xs rest ih =>
    intro r hr
    simp only [productLists, List.mem_flatMap, List.mem_map] at hr
    obtain ⟨x, hx, tl, htl, rfl⟩ := hr
    exact List.Forall₂.cons hx (ih htl)

theorem parameter_combinations_fst {V : Type} : ∀ (spec : ParamSpec V),
    ∀ c ∈ parameter_combinations spec, c.map Prod.fst = spec.map Prod.fst := by
  intro spec
  induction spec with
  | nil =>
    intro c hc
    simp only [parameter_combinations, List.mem_singleton] at hc
    subst hc
    rfl
  | cons e rest ih =>
    obtain ⟨name, sv⟩ := e
    intro c hc
    simp only [parameter_combinations, List.mem_flatMap, List.mem_map] at hc
    obtain ⟨v, hv, combo, hcombo, rfl⟩ := hc
    simp [ih combo hcombo]

/-- Claim C1: resolving a pipeline description with k operations whose
parameter specs admit n1..nk single-valued combinations yields exactly
n1 * n2 * ... * nk resolved descriptions; every result pairs the
original operations, in the original order, each with a single-valued
parameter mapping over exactly the declared parameter names (one value
per parameter, single-valuedness being enforced by the result type). -/
theorem resolve_complex_descriptions_spec {V : Type} (desc : PipelineDescription V) :
    (PipelineManager._resolve_complex_descriptions desc).length
        = (desc.map fun fp => (parameter_combinations fp.2).length).prod
    ∧ ∀ r ∈ PipelineManager._resolve_complex_descriptions desc,
        List.Forall₂ (fun rop dop => rop.1 = dop.1
          ∧ rop.2.map Prod.fst = dop.2.map Prod.fst) r desc := by
  constructor
  · simp only [PipelineManager._resolve_complex_descriptions]
    rw [productLists_length]
    simp [List.map_map, Function.comp_def]
  · intro r hr
    simp only [PipelineManager._resolve_complex_descriptions] at hr
    have h2 := mem_productLists hr
    rw [List.forall₂_map_right_iff] at h2
    refine List.Forall₂.imp ?_ h2
    intro rop dop hmem
    simp only [List.mem_map] at hmem
    obtain ⟨combo, hcombo, rfl⟩ := hmem
    exact ⟨rfl, parameter_combinations_fst dop.2 combo hcombo⟩

/-- Witness for C1: `exampleDescription` has per-operation combination
counts 1 and 6, resolves to exactly 6 descriptions, and the member
`exampleResolved` pairs the same operations in order with single-valued
mappings over the declared parameter names. -/
theorem resolve_complex_descriptions_spec_witness :
    (PipelineManager._resolve_complex_descriptions exampleDescription).length
        = (exampleDescription.map fun fp => (parameter_combinations fp.2).length).prod
    ∧ List.Forall₂ (fun rop dop => rop.1 = dop.1
        ∧ rop.2.map Prod.fst = dop.2.map Prod.fst) exampleResolved exampleDescription :=
  ⟨(resolve_complex_descriptions_spec exampleDescription).1,
    (resolve_complex_descriptions_spec exampleDescription).2 exampleResolved (by decide)⟩

/-- Claim C4: constructing a `PipelineDescription` containing a
parameter name absent from its operation's accepted (introspectable)
parameter set always fails with the validation error naming the
offending operation and parameter, while a description in which every
parameter name is accepted always validates successfully. -/
theorem validate_param_names_spec {V : Type} (get_params : String → List String)
    (desc : PipelineDescription V) :
    ((∀ e ∈ desc, ∀ pn ∈ e.2.map Prod.fst, pn ∈ get_params e.1) →
        PipelineDescription._validate get_params desc = .ok ())
    ∧ ((∃ e ∈ desc, get_params e.1 ≠ [] ∧ ∃ pn ∈ e.2.map Prod.fst, pn ∉ get_params e.1) →
        ∃ f bad, PipelineDescription._validate get_params desc = .error (f, bad)
          ∧ get_params f ≠ [] ∧ bad ∉ get_params f
          ∧ ∃ ps, (f, ps) ∈ desc ∧ bad ∈ ps.map Prod.fst) := by
  induction desc with
  | nil =>
    constructor
    · intro _
      rfl
    · intro h
      simp at h
  | cons e rest ih =>
    obtain ⟨f, pd⟩ := e
    constructor
    · intro hall
      simp only [PipelineDescription._validate]
      by_cases hemp : (get_params f).isEmpty
      · rw [if_pos hemp]
        exact ih.1 fun e he pn hpn => hall e (List.mem_cons_of_mem _ he) pn hpn
      · rw [if_neg hemp]
        have hfind : (pd.map Prod.fst).find? (fun pn => !((get_params f).contains pn)) = none := by
          rw [List.find?_eq_none]
          intro pn hpn
          have hmem := hall (f, pd) (List.mem_cons_self _ _) pn hpn
          simp [hmem]
        rw [hfind]
        exact ih.1 fun e he pn hpn => hall e (List.mem_cons_of_mem _ he) pn hpn
    · intro hex
      simp only [PipelineDescription._validate]
      by_cases hemp : (get_params f).isEmpty
      · rw [if_pos hemp]
        obtain ⟨e, he, hne, pn, hpn, hnotin⟩ := hex
        rcases List.mem_cons.mp he with rfl | hrest
        · exact absurd (List.isEmpty_iff.mp hemp) hne
        · obtain ⟨f2, bad, hval, h1, h2, ps, hps, hbad⟩ :=
            ih.2 ⟨e, hrest, hne, pn, hpn, hnotin⟩
          exact ⟨f2, bad, hval, h1, h2, ps, List.mem_cons_of_mem _ hps, hbad⟩
      · rw [if_neg hemp]
        cases hfind : (pd.map Prod.fst).find? (fun pn => !((get_params f).contains pn)) with
        | some bad =>
          refine ⟨f, bad, rfl, ?_, ?_, pd, List.mem_cons_self _ _,
            List.mem_of_find?_eq_some hfind⟩
          · intro hnil
            rw [hnil] at hemp
            exact hemp rfl
          · have hbad := List.find?_some hfind
            simp at hbad
            exact hbad
        | none =>
          obtain ⟨e, he, hne, pn, hpn, hnotin⟩ := hex
          rcases List.mem_cons.mp he with rfl | hrest
          · rw [List.find?_eq_none] at hfind
            have hcontra := hfind pn hpn
            simp at hcontra
            exact absurd hcontra hnotin
          · obtain ⟨f2, bad, hval, h1, h2, ps, hps, hbad⟩ :=
              ih.2 ⟨e, hrest, hne, pn, hpn, hnotin⟩
            exact ⟨f2, bad, hval, h1, h2, ps, List.mem_cons_of_mem _ hps, hbad⟩

/-- Witness for C4: with the fixture introspection map,
`exampleDescription` (all names accepted) validates successfully and
`badDescription` (parameter `banana` not accepted by its operation)
fails with an error naming an offending operation and parameter. -/
theorem validate_param_names_spec_witness :
    PipelineDescription._validate acceptedParams exampleDescription = .ok ()
    ∧ ∃ f bad, PipelineDescription._validate acceptedParams badDescription = .error (f, bad)
        ∧ acceptedParams f ≠ [] ∧ bad ∉ acceptedParams f
        ∧ ∃ ps, (f, ps) ∈ badDescription ∧ bad ∈ ps.map Prod.fst :=
  ⟨(validate_param_names_spec acceptedParams exampleDescription).1 (by decide),
    (validate_param_names_spec acceptedParams badDescription).2 (by decide)⟩

/-! ### Search and registry lemmas -/

theorem processAll_eq_none {P Img : Type} (process : P → Option Img) :
    ∀ (l : List P), (∃ p ∈ l, process p = none) → processAll process l = none := by
  intro l
  induction l with
  | nil =>
    intro h
    simp at h
  | cons p rest ih =>
    intro h
    obtain ⟨q, hq, hfail⟩ := h
    simp only [processAll]
    rcases List.mem_cons.mp hq with rfl | hrest
    · rw [hfail]
    · cases hp : process p with
      | none => rfl
      | some img => rw [ih ⟨q, hrest, hfail⟩]

/-- Claim C2 (code bug): `GridSearch.search` is meant to return the
candidate at the position selected by the Selector, but the guard
`assert best_image_index` treats the valid position 0 as falsy; when
the Selector selects position 0 the search raises `AssertionError`
instead of returning `competitors[0]`, while a non-zero selected
position is mapped back correctly. -/
theorem search_asserts_on_first_position :
    GridSearch.search (fun _ => some 0) (fun n : Nat => some n) none [7, 8]
        = .error .assertionError
    ∧ GridSearch.search (fun _ => some 1) (fun n : Nat => some n) none [7, 8] = .ok 8 :=
  ⟨rfl, rfl⟩

/-- Claim C3: whenever preprocessors were registered since the last
search (`newly_added` non-empty), `get_best_preprocessor` clears the
cached best, returns `None`, prints the new-search-required warning,
and leaves `newly_added` (and `pipelines`) untouched. -/
theorem get_best_preprocessor_invalidates {P : Type} (cls : PipelineManager P)
    (h : cls.newly_added ≠ []) :
    (cls.get_best_preprocessor).1 = none
    ∧ (cls.get_best_preprocessor).2.1.best_preprocessor = none
    ∧ (cls.get_best_preprocessor).2.1.newly_added = cls.newly_added
    ∧ (cls.get_best_preprocessor).2.1.pipelines = cls.pipelines
    ∧ (cls.get_best_preprocessor).2.2
        = ["New pipelines were added. Do run_search once again to define a new winner"] := by
  have hne : ¬(cls.newly_added.isEmpty = true) := by
    simp [List.isEmpty_iff]
    exact h
  simp only [PipelineManager.get_best_preprocessor, if_neg hne]
  exact ⟨trivial, trivial, trivial, trivial, trivial⟩

/-- Witness for C3: a registry with a cached winner and one newly added
preprocessor. -/
theorem get_best_preprocessor_invalidates_witness :
    (([2] : List Nat) ≠ [])
    ∧ (((⟨[1, 2], some 1, [2]⟩ : PipelineManager Nat).get_best_preprocessor).1 = none
      ∧ ((⟨[1, 2], some 1, [2]⟩ : PipelineManager Nat).get_best_preprocessor).2.1.best_preprocessor
          = none
      ∧ ((⟨[1, 2], some 1, [2]⟩ : PipelineManager Nat).get_best_preprocessor).2.1.newly_added
          = (⟨[1, 2], some 1, [2]⟩ : PipelineManager Nat).newly_added
      ∧ ((⟨[1, 2], some 1, [2]⟩ : PipelineManager Nat).get_best_preprocessor).2.1.pipelines
          = (⟨[1, 2], some 1, [2]⟩ : PipelineManager Nat).pipelines
      ∧ ((⟨[1, 2], some 1, [2]⟩ : PipelineManager Nat).get_best_preprocessor).2.2
          = ["New pipelines were added. Do run_search once again to define a new winner"]) :=
  ⟨by decide, get_best_preprocessor_invalidates ⟨[1, 2], some 1, [2]⟩ (by decide)⟩

/-- Claim C5 counterexample: with candidate 0 failing and candidate 1
succeeding, the search does not exclude the failing candidate and
continue — it aborts with the propagated execution failure, producing
no winner at all. -/
theorem search_execution_failure_counterexample :
    GridSearch.search (fun _ => some 0) (fun n : Nat => if n = 0 then none else some n)
        none [0, 1] = .error .executionError
    ∧ (fun n : Nat => if n = 0 then none else some n) 1 = some 1 :=
  ⟨rfl, rfl⟩

/-- Claim C5 (amended): if any candidate's run raises during the
search, `GridSearch.search` does not catch it per-candidate; the
exception propagates immediately and the whole search aborts with that
execution failure (no ranking over the remaining candidates, no
diagnostic record). -/
theorem search_execution_failure_aborts {P Img : Type} (oracle : Nat → Option Nat)
    (process : P → Option Img) (ocr_engine : Option (Img → Img)) (competitors : List P)
    (h : ∃ p ∈ competitors, process p = none) :
    GridSearch.search oracle process ocr_engine competitors = .error .executionError := by
  simp only [GridSearch.search]
  rw [processAll_eq_none process competitors h]

/-- Witness for amended C5: candidate 0 fails, so the concrete search
aborts with the execution failure. -/
theorem search_execution_failure_aborts_witness :
    (∃ p ∈ [0, 1], (fun n : Nat => if n = 0 then none else some n) p = none)
    ∧ GridSearch.search (fun _ => some 0) (fun n : Nat => if n = 0 then none else some n)
        none [0, 1] = .error .executionError :=
  ⟨⟨0, by decide, rfl⟩,
    search_execution_failure_aborts (fun _ => some 0)
      (fun n : Nat => if n = 0 then none else some n) none [0, 1] ⟨0, by decide, rfl⟩⟩

/-- Claim C8: `GridSearch.search` on an empty candidate pool fails
immediately: the Selector returns `None` for the empty pool and the
`assert` raises — the empty-pool failure the spec names
`NoCandidatesError`, surfaced as an `AssertionError`. -/
theorem search_empty_pool_fails {P Img : Type} (oracle : Nat → Option Nat)
    (process : P → Option Img) (ocr_engine : Option (Img → Img)) :
    GridSearch.search oracle process ocr_engine ([] : List P) = .error .assertionError := by
  cases ocr_engine <;> rfl

/-- Claim C9 (code bug): the oracle cancelling mid-search does not
unwind the search.  With five newly added candidates the oracle picks
batch position 1 in round 0 and cancels in round 1; the loop continues
past the cancellation, the partially selected candidate 11 is returned
as winner, `run_search` caches it and clears `newly_added` — instead of
discarding partial results and preserving `newly_added`. -/
theorem run_search_cancelled_still_caches_winner :
    cancelAfterFirstOracle 1 = none
    ∧ (PipelineManager.run_search
        (⟨[10, 11, 12, 13, 14], none, [10, 11, 12, 13, 14]⟩ : PipelineManager Nat)
        cancelAfterFirstOracle (fun n : Nat => some n) none "GridSearch" false).state.best_preprocessor = some 11
    ∧ (PipelineManager.run_search
        (⟨[10, 11, 12, 13, 14], none, [10, 11, 12, 13, 14]⟩ : PipelineManager Nat)
        cancelAfterFirstOracle (fun n : Nat => some n) none "GridSearch" false).state.newly_added = []
    ∧ (PipelineManager.run_search
        (⟨[10, 11, 12, 13, 14], none, [10, 11, 12, 13, 14]⟩ : PipelineManager Nat)
        cancelAfterFirstOracle (fun n : Nat => some n) none "GridSearch" false).err = none :=
  ⟨rfl, rfl, rfl, rfl⟩

/-- Claim C10: `run_search` with any strategy name other than
`"GridSearch"` prints the valid-options message, raises
`UnboundLocalError` (the local `strategy` is never bound before line
143 uses it), and leaves the registry state — including the cached best
and `newly_added` — unchanged. -/
theorem run_search_unknown_strategy {P Img : Type} (cls : PipelineManager P)
    (oracle : Nat → Option Nat) (process : P → Option Img)
    (ocr_engine : Option (Img → Img)) (search_strategy : String) (cold_start : Bool)
    (h : search_strategy ≠ "GridSearch") :
    PipelineManager.run_search cls oracle process ocr_engine search_strategy cold_start
      = ⟨["No such strategy implemented. Valid options are: GridSearch"], cls,
          some .unboundLocalError⟩ := by
  simp only [PipelineManager.run_search, if_neg h]

/-- Witness for C10: the strategy name `"RandomSearch"`. -/
theorem run_search_unknown_strategy_witness :
    ("RandomSearch" ≠ "GridSearch")
    ∧ PipelineManager.run_search (⟨[1], some 1, [2]⟩ : PipelineManager Nat)
        (fun _ => some 0) (fun n : Nat => some n) none "RandomSearch" false
      = ⟨["No such strategy implemented. Valid options are: GridSearch"],
          ⟨[1], some 1, [2]⟩, some .unboundLocalError⟩ :=
  ⟨by decide, run_search_unknown_strategy ⟨[1], some 1, [2]⟩ (fun _ => some 0)
      (fun n => some n) none "RandomSearch" false (by decide)⟩
